import Mathlib

/-!
Verification development for the reichat-server room engine
(src/src/index.ts).  The stateful TypeScript `Server` class is embedded
shallowly: every handler becomes a pure function from the relevant inputs
and the current server state to a new state plus a list of observable
actions (socket emissions, broker publishes, layer change signals) plus a
flag recording whether the handler threw a runtime `TypeError`.  Pixel
buffers (`Buffer` in the source) are embedded as functions from byte index
to byte value; machine integers are `Nat`/`Int` (the JS numbers appearing
here are used as integers; `isNaN`/fractional inputs are rejected or
truncated by the source before any state change and are not representable
in this embedding).  The PNG codec is external to the engine and is passed
in as an abstract `decode` function.
-/

namespace Reichat

/-- A client record, `IClient` in src/src/index.ts: `server` is the hosting
server's id (`IServer.id`).  The optional JS fields `name`, `remoteAddr`
and `isOnline` are embedded with defaults `""` / `false`. -/
structure Client where
  uuid : String
  name : String
  pin : String
  remoteAddr : String
  isOnline : Bool
  server : String
  deriving DecidableEq, Repr

/-- The public projection of a client, `IDistClient` in src/src/index.ts. -/
structure DistClient where
  uuid : String
  name : String
  server : String
  deriving DecidableEq, Repr

/-- `Server.clientToDistributable` (src/src/index.ts lines 305-311). -/
def clientToDistributable (c : Client) : DistClient :=
  ⟨c.uuid, c.name, c.server⟩

/-- `Server.distributableClients` (src/src/index.ts lines 283-303): the
online clients projected to their public fields.  The source skips a record
exactly when `isOnline === false`, which on the embedded `Bool` field means
keeping exactly the online ones. -/
def distributableClients (clients : List Client) : List DistClient :=
  (clients.filter (fun c => c.isOnline)).map clientToDistributable

/-- The removal pass of `Server.updateClientsByServer` (src/src/index.ts
lines 599-604): the for/splice loop walks the roster and removes every
record whose `server.id` equals the peer id, keeping the rest in order. -/
def removeClientsOfServer (sid : String) : List Client → List Client
  | [] => []
  | c :: rest =>
    if c.server = sid then removeClientsOfServer sid rest
    else c :: removeClientsOfServer sid rest

/-- `Server.updateClientsByServer` (src/src/index.ts lines 595-609) acting
on the roster list: first the removal loop, then every entry of the
supplied list whose `server.id` equals the peer id is pushed in order. -/
def updateClientsByServer (sid : String) (clients : List Client)
    (roster : List Client) : List Client :=
  removeClientsOfServer sid roster ++ clients.filter (fun c => c.server = sid)

lemma removeClientsOfServer_eq_filter (sid : String) (l : List Client) :
    removeClientsOfServer sid l = l.filter (fun c => c.server ≠ sid) := by
  induction l with
  | nil => rfl
  | cons c rest ih =>
    by_cases h : c.server = sid <;>
      simp [removeClientsOfServer, List.filter_cons, h, ih]

lemma updateClientsByServer_eq (sid : String) (cs roster : List Client) :
    updateClientsByServer sid cs roster =
      roster.filter (fun c => c.server ≠ sid)
        ++ cs.filter (fun c => c.server = sid) := by
  simp [updateClientsByServer, removeClientsOfServer_eq_filter]

end Reichat

namespace Reichat

/-- C10: `updateClientsByServer(P, L)` keeps every roster record whose
server id differs from P, unchanged and in relative order, removes every
record whose server id equals P, and appends exactly the sublist of L whose
entries carry server id P; entries of L claiming any other server id are
dropped. -/
theorem updateClientsByServer_frame (sid : String) (cs roster : List Client) :
    updateClientsByServer sid cs roster =
      roster.filter (fun c => c.server ≠ sid)
        ++ cs.filter (fun c => c.server = sid) :=
  updateClientsByServer_eq sid cs roster

/-- C9: `updateClientsByServer` is idempotent — applying the same peer id
and client list twice yields the same roster (same records, same order) as
applying it once. -/
theorem updateClientsByServer_idem (sid : String) (cs roster : List Client) :
    updateClientsByServer sid cs (updateClientsByServer sid cs roster) =
      updateClientsByServer sid cs roster := by
  simp only [updateClientsByServer_eq, List.filter_append, List.filter_filter]
  have h1 : ∀ a : Client,
      (decide (a.server ≠ sid) && decide (a.server = sid)) = false := by
    intro a
    by_cases h : a.server = sid <;> simp [h]
  simp [h1]

end Reichat

namespace Reichat

/-- A byte buffer (`Buffer` in the source), embedded as byte index to byte
value.  Layer buffers have length `width * height * 4`; only indices below
that bound are ever read or written by the engine. -/
abbrev Buf : Type := Nat → Nat

/-- The list `s, s+1, ..., s+n-1`, the values taken by a `for` counter. -/
def natRange (s n : Nat) : List Nat := (List.range n).map (fun d => s + d)

/-- The coordinate pairs visited by a doubly nested pixel loop: the outer
loop walks `ys` (row numbers), the inner loop walks `xs` (columns). -/
def grid (xs ys : List Nat) : List (Nat × Nat) :=
  ys.flatMap (fun y => xs.map (fun x => (x, y)))

lemma mem_natRange {s n m : Nat} : m ∈ natRange s n ↔ s ≤ m ∧ m < s + n := by
  simp only [natRange, List.mem_map, List.mem_range]
  constructor
  · rintro ⟨d, hd, rfl⟩; omega
  · intro h; exact ⟨m - s, by omega, by omega⟩

lemma mem_grid {xs ys : List Nat} {p : Nat × Nat} :
    p ∈ grid xs ys ↔ p.1 ∈ xs ∧ p.2 ∈ ys := by
  cases p with
  | mk a b =>
    simp only [grid, List.mem_flatMap, List.mem_map]
    constructor
    · rintro ⟨y, hy, x, hx, h⟩
      cases h; exact ⟨hx, hy⟩
    · rintro ⟨ha, hb⟩; exact ⟨b, hb, a, ha, rfl⟩

lemma count_map_row (xs : List Nat) (y a b : Nat) :
    ((xs.map (fun x => (x, y))).count (a, b))
      = if y = b then xs.count a else 0 := by
  induction xs with
  | nil => simp
  | cons x rest ih =>
    by_cases hy : y = b
    · subst hy
      by_cases hx : x = a
      · subst hx; simp [List.count_cons, ih]
      · simp [List.count_cons, ih, hx, Prod.ext_iff]
    · simp [List.count_cons, ih, hy, Prod.ext_iff]

lemma count_grid (xs ys : List Nat) (a b : Nat) :
    ((grid xs ys).count (a, b)) = ys.count b * xs.count a := by
  induction ys with
  | nil => simp [grid]
  | cons y rest ih =>
    by_cases hy : y = b <;>
      simp [grid, List.count_append, count_map_row, List.count_cons, hy,
        ih, Nat.add_mul, Nat.add_comm] at ih ⊢

lemma count_natRange (s n m : Nat) :
    (natRange s n).count m = if s ≤ m ∧ m < s + n then 1 else 0 := by
  induction n with
  | zero =>
    have h : ¬(s ≤ m ∧ m < s) := by omega
    simp [natRange, h]
  | succ k ih =>
    have hsplit : natRange s (k + 1) = natRange s k ++ [s + k] := by
      simp [natRange, List.range_succ]
    rw [hsplit, List.count_append, ih]
    by_cases h1 : s + k = m
    · have h2 : ¬(s ≤ m ∧ m < s + k) := by omega
      have h3 : s ≤ m ∧ m < s + (k + 1) := by omega
      simp [h1, h2, h3]
    · by_cases h2 : s ≤ m ∧ m < s + k
      · have h3 : s ≤ m ∧ m < s + (k + 1) := by omega
        simp [h1, h2, h3, List.count_cons]
      · have h3 : ¬(s ≤ m ∧ m < s + (k + 1)) := by omega
        simp [h1, h2, h3, List.count_cons]

/-- If no element of the coordinate list touches byte index `k`, the fold
over the list leaves the buffer unchanged at `k`. -/
lemma foldl_apply_of_not_hit {F : Buf → (Nat × Nat) → Buf} {k : Nat} :
    ∀ {S : List (Nat × Nat)} (buf : Buf),
      (∀ buf' p, p ∈ S → F buf' p k = buf' k) →
      (S.foldl F buf) k = buf k := by
  intro S
  induction S with
  | nil => intro buf _; rfl
  | cons q rest ih =>
    intro buf h
    rw [List.foldl_cons, ih (F buf q) (fun buf' p hp => h buf' p (by simp [hp]))]
    exact h buf q (by simp)

/-- If coordinate `q₀` occurs exactly once in the list, every other element
leaves index `k` alone, and the step at `q₀` rewrites index `k` by `G` of
the current value, then the fold rewrites index `k` by `G`. -/
lemma foldl_apply_of_count_one {F : Buf → (Nat × Nat) → Buf} {G : Nat → Nat}
    {k : Nat} (q₀ : Nat × Nat) :
    ∀ {S : List (Nat × Nat)} (buf : Buf),
      S.count q₀ = 1 →
      (∀ buf' p, p ∈ S → p ≠ q₀ → F buf' p k = buf' k) →
      (∀ buf' : Buf, F buf' q₀ k = G (buf' k)) →
      (S.foldl F buf) k = G (buf k) := by
  intro S
  induction S with
  | nil => intro buf hc _ _; simp at hc
  | cons q rest ih =>
    intro buf hc hskip hwrite
    rw [List.foldl_cons]
    by_cases hq : q = q₀
    · subst hq
      have hrest : rest.count q = 0 := by
        simp [List.count_cons] at hc; omega
      have hnot : q ∉ rest := by
        rw [← List.count_eq_zero] at *; exact hrest
      rw [foldl_apply_of_not_hit (F buf q)
        (fun buf' p hp => hskip buf' p (by simp [hp])
          (fun hpq => hnot (hpq ▸ hp)))]
      exact hwrite buf
    · have hc' : rest.count q₀ = 1 := by
        simp [List.count_cons, hq] at hc
        omega
      rw [ih (F buf q) hc'
        (fun buf' p hp hne => hskip buf' p (by simp [hp]) hne) hwrite,
        hskip buf q (by simp) hq]

/-- Specialisation of `foldl_apply_of_count_one` to a written value that
does not depend on the current buffer contents. -/
lemma foldl_apply_of_count_one_const {F : Buf → (Nat × Nat) → Buf}
    {k : Nat} (q₀ : Nat × Nat) {v : Nat} {S : List (Nat × Nat)} (buf : Buf)
    (hc : S.count q₀ = 1)
    (hskip : ∀ buf' p, p ∈ S → p ≠ q₀ → F buf' p k = buf' k)
    (hwrite : ∀ buf' : Buf, F buf' q₀ k = v) :
    (S.foldl F buf) k = v :=
  foldl_apply_of_count_one (G := fun _ => v) q₀ buf hc hskip hwrite

/-- Injectivity of the byte addressing `4 * (w * y + x) + c` used by the
source (`(w * y + x) << 2` plus a channel offset) for in-bounds columns and
channels. -/
lemma pixAddr_inj {w x x' y y' c c' : Nat} (hx : x < w) (hx' : x' < w)
    (hc : c < 4) (hc' : c' < 4)
    (h : 4 * (w * y + x) + c = 4 * (w * y' + x') + c') :
    x = x' ∧ y = y' ∧ c = c' := by
  have hw : 0 < w := Nat.lt_of_le_of_lt (Nat.zero_le x) hx
  have hbase : w * y + x = w * y' + x' ∧ c = c' := by omega
  have hxx : x = x' := by
    have h1 : (w * y + x) % w = (w * y' + x') % w := by rw [hbase.1]
    rwa [Nat.mul_add_mod, Nat.mul_add_mod, Nat.mod_eq_of_lt hx,
      Nat.mod_eq_of_lt hx'] at h1
  refine ⟨hxx, ?_, hbase.2⟩
  have h2 : w * y = w * y' := by omega
  exact Nat.eq_of_mul_eq_mul_left hw h2

/-- One iteration of the pixel-copy loop body of `Server.sendPaint`
(src/src/index.ts lines 871-881): at coordinate `(x, y)` the four bytes
R, G, B, A of the layer pixel (base index `i = (w*y+x) << 2`) are
overwritten with the four bytes of the patch pixel (base index
`j = (iw*(y-py)+(x-px)) << 2`) — a plain copy, no alpha blending. -/
def paintWritePixel (w px py iw : Nat) (imgData buf : Buf)
    (p : Nat × Nat) : Buf :=
  fun k =>
    if k = 4 * (w * p.2 + p.1) then
      imgData (4 * (iw * (p.2 - py) + (p.1 - px)))
    else if k = 4 * (w * p.2 + p.1) + 1 then
      imgData (4 * (iw * (p.2 - py) + (p.1 - px)) + 1)
    else if k = 4 * (w * p.2 + p.1) + 2 then
      imgData (4 * (iw * (p.2 - py) + (p.1 - px)) + 2)
    else if k = 4 * (w * p.2 + p.1) + 3 then
      imgData (4 * (iw * (p.2 - py) + (p.1 - px)) + 3)
    else buf k

/-- The coordinates visited by the two paint loops of `Server.sendPaint`:
`y` runs from `py` to `ph - 1` (outer loop), `x` from `px` to `pw - 1`
(inner loop). -/
def paintCoords (px py pw ph : Nat) : List (Nat × Nat) :=
  grid (natRange px (pw - px)) (natRange py (ph - py))

/-- The full pixel-copy double loop of `Server.sendPaint`. -/
def applyPatch (w px py iw : Nat) (imgData : Buf) (pw ph : Nat)
    (buf : Buf) : Buf :=
  (paintCoords px py pw ph).foldl (paintWritePixel w px py iw imgData) buf

lemma paintWritePixel_not_hit {w px py iw : Nat} {imgData buf : Buf}
    {p : Nat × Nat} {k : Nat}
    (h : ∀ c, c < 4 → k ≠ 4 * (w * p.2 + p.1) + c) :
    paintWritePixel w px py iw imgData buf p k = buf k := by
  have h0 : k ≠ 4 * (w * p.2 + p.1) := by
    have := h 0 (by omega); omega
  have h1 : k ≠ 4 * (w * p.2 + p.1) + 1 := h 1 (by omega)
  have h2 : k ≠ 4 * (w * p.2 + p.1) + 2 := h 2 (by omega)
  have h3 : k ≠ 4 * (w * p.2 + p.1) + 3 := h 3 (by omega)
  simp [paintWritePixel, h0, h1, h2, h3]

lemma paintWritePixel_hit {w px py iw : Nat} {imgData buf : Buf}
    {x y c : Nat} (hc : c < 4) :
    paintWritePixel w px py iw imgData buf (x, y) (4 * (w * y + x) + c)
      = imgData (4 * (iw * (y - py) + (x - px)) + c) := by
  have h4 : c = 0 ∨ c = 1 ∨ c = 2 ∨ c = 3 := by omega
  simp only [paintWritePixel]
  rcases h4 with rfl | rfl | rfl | rfl
  · simp
  · rw [if_neg (by omega), if_pos rfl]
  · rw [if_neg (by omega), if_neg (by omega), if_pos rfl]
  · rw [if_neg (by omega), if_neg (by omega), if_neg (by omega), if_pos rfl]

/-- Inside the clipped rectangle, `applyPatch` sets each byte of the layer
to the corresponding patch byte. -/
lemma applyPatch_inside {w px py iw pw ph : Nat} (imgData buf : Buf)
    {x y c : Nat} (hpw : pw ≤ w)
    (hx1 : px ≤ x) (hx2 : x < pw) (hy1 : py ≤ y) (hy2 : y < ph)
    (hc : c < 4) :
    applyPatch w px py iw imgData pw ph buf (4 * (w * y + x) + c)
      = imgData (4 * (iw * (y - py) + (x - px)) + c) := by
  simp only [applyPatch]
  apply foldl_apply_of_count_one_const (x, y)
  · rw [paintCoords, count_grid, count_natRange, count_natRange]
    have c1 : py ≤ y ∧ y < py + (ph - py) := by omega
    have c2 : px ≤ x ∧ x < px + (pw - px) := by omega
    simp [c1, c2]
  · rintro buf' ⟨a, b⟩ hp hne
    apply paintWritePixel_not_hit
    intro c' hc' hk
    rw [paintCoords] at hp
    rcases mem_grid.1 hp with ⟨hpx, hpy⟩
    rw [mem_natRange] at hpx hpy
    simp only at hpx hpy hk
    have hxw : x < w := by omega
    have haw : a < w := by omega
    rcases pixAddr_inj hxw haw hc hc' hk with ⟨e1, e2, _⟩
    exact hne (by simp [e1, e2])
  · intro buf'
    exact paintWritePixel_hit hc

/-- Outside the clipped rectangle, `applyPatch` leaves the byte alone. -/
lemma applyPatch_outside {w px py iw pw ph : Nat} (imgData buf : Buf)
    {x y c : Nat} (hpw : pw ≤ w) (hxw : x < w) (hc : c < 4)
    (hout : ¬(px ≤ x ∧ x < pw ∧ py ≤ y ∧ y < ph)) :
    applyPatch w px py iw imgData pw ph buf (4 * (w * y + x) + c)
      = buf (4 * (w * y + x) + c) := by
  simp only [applyPatch]
  apply foldl_apply_of_not_hit
  rintro buf' ⟨a, b⟩ hp
  apply paintWritePixel_not_hit
  intro c' hc' hk
  rw [paintCoords] at hp
  rcases mem_grid.1 hp with ⟨hpx, hpy⟩
  rw [mem_natRange] at hpx hpy
  simp only at hpx hpy hk
  have haw : a < w := by omega
  rcases pixAddr_inj hxw haw hc hc' hk with ⟨e1, e2, _⟩
  omega

end Reichat

namespace Reichat

/-- `EDataMode` (src/src/index.ts lines 22-26): decided once at
construction from the configuration. -/
inductive DataMode where
  | none
  | fs
  | redis
  deriving DecidableEq, Repr

/-- A decoded patch image — the surface of the external `png-async` codec
used by `sendPaint` (`new png.Image().parse`): dimensions plus an RGBA byte
buffer. -/
structure Img where
  width : Nat
  height : Nat
  data : Buf

/-- The `paint` payload, `IPaintMessage` (src/src/index.ts lines 112-118).
`data = none` embeds a payload whose `data` field is not a `Buffer`
(`Buffer.isBuffer` fails).  `x`, `y`, `layerNumber` are integers; the
source's `>> 0` truncation is the identity on in-range integers and `isNaN`
inputs are rejected before any state change. -/
structure PaintMsg where
  layerNumber : Int
  mode : String
  x : Int
  y : Int
  data : Option (List Nat)
  deriving DecidableEq, Repr

/-- The `chat` payload, `IChatMessage`: `message = none` embeds a payload
whose `message` is not a string; `time = 0` is JS-falsy, so it stands for
an absent timestamp as well. -/
structure ChatMsg where
  message : Option String
  time : Nat
  deriving DecidableEq, Repr

/-- The `stroke` payload, `IStrokeMessage`: `points = none` embeds a
payload whose `points` is not an array; each point is a list of numbers
(accesses past the end read `undefined`, which fails `isNaN`). -/
structure StrokeMsg where
  points : Option (List (List Int))
  deriving DecidableEq, Repr

/-- The `pointer` payload, `IPointerMessage`. -/
structure PointerMsg where
  x : Int
  y : Int
  deriving DecidableEq, Repr

/-- The `client` bind payload: `uuid` and `pin` may be absent; a missing
`name` is embedded as `""` (absent and empty are both JS-falsy and are
rejected by the same check). -/
structure BindInput where
  uuid : Option String
  pin : Option String
  name : String
  deriving DecidableEq, Repr

/-- An observable effect of a handler: a Socket.IO emission, a broker
publish, a forced disconnect, or a Layer `change`/`update` signal.  The
`Fanout` actions carry whether the emission is a broadcast excluding the
originating socket (`exceptSender = true`) or goes to every socket. -/
inductive Action where
  | emitClientInfo (sock : Nat) (uuid name pin : String)
  | disconnectSocket (sock : Nat)
  | publishProvide (body : List Client)
  | publishPong
  | publishPaint (c : Client) (p : PaintMsg)
  | publishStroke (c : Client) (points : List (List Int))
  | publishPointer (c : Client) (p : PointerMsg)
  | publishChat (c : Client) (message : String) (time : Nat)
  | publishSystem (message : String)
  | emitClients (body : List DistClient)
  | emitChat (c : Option DistClient) (message : String) (time : Nat)
  | paintFanout (exceptSender : Bool) (c : DistClient) (p : PaintMsg)
  | emitPainted (uuid : String)
  | strokeFanout (exceptSender : Bool) (c : DistClient)
      (points : List (List Int))
  | pointerFanout (exceptSender : Bool) (c : DistClient) (x y : Int)
  | layerChange (n : Nat)
  | layerUpdate (n : Nat)
  deriving DecidableEq, Repr

/-- The mutable state of a `Server`: the roster (`resource.clients`), the
uuid-keyed client map (`map.client`), the uuid-to-socket index
(`map.socket`, socket ids embedded as `Nat`), and the layer buffers
(`resource.layers`).  JS aliasing — `map.client` values and roster entries
are the same objects — is embedded by updating records by uuid in both
structures wherever the source mutates a shared record. -/
structure ServerState where
  clients : List Client
  clientMap : List (String × Client)
  socketMap : List (String × Nat)
  layers : List Buf

/-- The result of one handler run: the state afterwards, the emitted
actions in program order, and whether the handler threw a `TypeError`.  A
JS exception does not roll back mutations already made, so `st` holds the
state at the moment of the throw. -/
structure StepResult where
  st : ServerState
  out : List Action
  err : Bool

/-- `Server.sendPaint` (src/src/index.ts lines 832-912).  The guards
mirror the source order (layer range, mode, `Buffer.isBuffer`, negative
coordinates, PNG parse).  `decode` stands for the external PNG codec and
returns `none` on a parse error.  A `client` of `none` embeds the `null`
client reference a socket has before a successful bind: the source only
dereferences it after the pixel-copy loop (`clientToDistributable`), so
the patch is applied to the layer and then a `TypeError` is thrown. -/
def sendPaint (decode : List Nat → Option Img) (selfId : String)
    (dataMode : DataMode) (layerCount w h : Nat) (client : Option Client)
    (paint : PaintMsg) (st : ServerState) : StepResult :=
  if paint.layerNumber < 0 ∨ (layerCount : Int) ≤ paint.layerNumber then
    ⟨st, [], false⟩
  else if paint.mode ≠ "normal" ∧ paint.mode ≠ "erase" then ⟨st, [], false⟩
  else
    match paint.data with
    | Option.none => ⟨st, [], false⟩
    | Option.some bytes =>
      if paint.x < 0 ∨ paint.y < 0 then ⟨st, [], false⟩
      else
        match decode bytes with
        | Option.none => ⟨st, [], false⟩
        | Option.some img =>
          let px := paint.x.toNat
          let py := paint.y.toNat
          let pw := min (px + img.width) w
          let ph := min (py + img.height) h
          let n := paint.layerNumber.toNat
          let layer := st.layers.getD n (fun _ => 0)
          let layer' := applyPatch w px py img.width img.data pw ph layer
          let st' : ServerState := { st with layers := st.layers.set n layer' }
          match client with
          | Option.none => ⟨st', [], true⟩
          | Option.some c =>
            let fanout : List Action :=
              if (st.socketMap.lookup c.uuid).isSome then
                [Action.paintFanout true (clientToDistributable c) paint,
                 Action.emitPainted c.uuid]
              else [Action.paintFanout false (clientToDistributable c) paint]
            let after : List Action :=
              if c.server = selfId then
                (if dataMode = DataMode.redis then
                  [Action.publishPaint c paint]
                 else []) ++ [Action.layerChange n]
              else [Action.layerUpdate n]
            ⟨st', fanout ++ after, false⟩

lemma sendPaint_accepted_st (decode : List Nat → Option Img)
    (selfId : String) (dataMode : DataMode) (layerCount w h : Nat)
    (client : Option Client) (paint : PaintMsg) (st : ServerState)
    (bytes : List Nat) (img : Img)
    (hdata : paint.data = Option.some bytes)
    (hdec : decode bytes = Option.some img)
    (hl0 : 0 ≤ paint.layerNumber)
    (hl1 : paint.layerNumber < (layerCount : Int))
    (hmode : paint.mode = "normal" ∨ paint.mode = "erase")
    (hx : 0 ≤ paint.x) (hy : 0 ≤ paint.y) :
    (sendPaint decode selfId dataMode layerCount w h client paint st).st =
      { st with
          layers := st.layers.set paint.layerNumber.toNat
            (applyPatch w paint.x.toNat paint.y.toNat img.width img.data
              (min (paint.x.toNat + img.width) w)
              (min (paint.y.toNat + img.height) h)
              (st.layers.getD paint.layerNumber.toNat (fun _ => 0))) } := by
  have g1 : ¬(paint.layerNumber < 0 ∨ (layerCount : Int) ≤ paint.layerNumber) := by
    omega
  have g2 : ¬(paint.mode ≠ "normal" ∧ paint.mode ≠ "erase") := by
    rcases hmode with hm | hm <;> simp [hm]
  have g3 : ¬(paint.x < 0 ∨ paint.y < 0) := by omega
  rw [sendPaint, if_neg g1, if_neg g2, hdata]
  simp only
  rw [if_neg g3, hdec]
  simp only
  cases client <;> rfl

end Reichat

namespace Reichat

lemma getD_set_self {l : List Buf} {n : Nat} {a d : Buf}
    (h : n < l.length) : (l.set n a).getD n d = a := by
  rw [List.getD_eq_getElem?_getD, List.getElem?_set_self h]
  rfl

lemma getD_set_ne {l : List Buf} {n m : Nat} {a d : Buf}
    (h : n ≠ m) : (l.set n a).getD m d = l.getD m d := by
  rw [List.getD_eq_getElem?_getD, List.getElem?_set_ne h,
    ← List.getD_eq_getElem?_getD]

/-- C1: for an accepted paint event (valid layer number and mode,
non-negative integer coordinates, a patch the codec decodes), every byte —
R, G, B and alpha alike — of every pixel inside the clipped rectangle of
the target layer is set to the corresponding patch byte: a plain copy with
no alpha blending, so in particular a zero-alpha patch pixel overwrites
the layer pixel's alpha with zero. -/
theorem sendPaint_copies_patch (decode : List Nat → Option Img)
    (selfId : String) (dataMode : DataMode) (layerCount w h : Nat)
    (client : Option Client) (paint : PaintMsg) (st : ServerState)
    (bytes : List Nat) (img : Img)
    (hdata : paint.data = Option.some bytes)
    (hdec : decode bytes = Option.some img)
    (hl0 : 0 ≤ paint.layerNumber)
    (hl1 : paint.layerNumber < (layerCount : Int))
    (hmode : paint.mode = "normal" ∨ paint.mode = "erase")
    (hx : 0 ≤ paint.x) (hy : 0 ≤ paint.y)
    (hlen : paint.layerNumber.toNat < st.layers.length)
    (x0 y0 c : Nat)
    (hx1 : paint.x.toNat ≤ x0)
    (hx2 : x0 < min (paint.x.toNat + img.width) w)
    (hy1 : paint.y.toNat ≤ y0)
    (hy2 : y0 < min (paint.y.toNat + img.height) h)
    (hc : c < 4) :
    ((sendPaint decode selfId dataMode layerCount w h client paint
        st).st.layers.getD paint.layerNumber.toNat (fun _ => 0))
        (4 * (w * y0 + x0) + c)
      = img.data (4 * (img.width * (y0 - paint.y.toNat)
          + (x0 - paint.x.toNat)) + c) := by
  rw [sendPaint_accepted_st decode selfId dataMode layerCount w h client
    paint st bytes img hdata hdec hl0 hl1 hmode hx hy]
  simp only
  rw [getD_set_self hlen]
  exact applyPatch_inside img.data _ (Nat.min_le_right _ _) hx1 hx2 hy1 hy2 hc

/-- Witness for C1 at a concrete input: a 1-by-1 canvas with one blank
layer receives a 1-by-1 patch of byte value 9 at the origin. -/
theorem sendPaint_copies_patch_witness :
    (PaintMsg.mk 0 "normal" 0 0 (Option.some [])).data = Option.some []
    ∧ ((fun _ => Option.some (Img.mk 1 1 (fun _ => 9)))
        ([] : List Nat) = Option.some (Img.mk 1 1 (fun _ => 9)))
    ∧ (((sendPaint (fun _ => Option.some (Img.mk 1 1 (fun _ => 9))) "S"
          DataMode.none 1 1 1 Option.none
          (PaintMsg.mk 0 "normal" 0 0 (Option.some []))
          (ServerState.mk [] [] [] [fun _ => 0])).st.layers.getD 0
          (fun _ => 0)) (4 * (1 * 0 + 0) + 0)
        = (Img.mk 1 1 (fun _ => 9)).data (4 * (1 * (0 - 0) + (0 - 0)) + 0)) :=
  ⟨rfl, rfl,
    sendPaint_copies_patch (fun _ => Option.some (Img.mk 1 1 (fun _ => 9)))
      "S" DataMode.none 1 1 1 Option.none
      (PaintMsg.mk 0 "normal" 0 0 (Option.some []))
      (ServerState.mk [] [] [] [fun _ => 0]) [] (Img.mk 1 1 (fun _ => 9))
      rfl rfl (by decide) (by decide) (Or.inl rfl) (by decide) (by decide)
      (by decide) 0 0 0 (by decide) (by decide) (by decide) (by decide)
      (by decide)⟩

/-- C2: an accepted paint event leaves every byte of the target layer that
addresses a pixel outside the clipped rectangle unchanged, and leaves the
buffers of all other layers unchanged. -/
theorem sendPaint_frame (decode : List Nat → Option Img)
    (selfId : String) (dataMode : DataMode) (layerCount w h : Nat)
    (client : Option Client) (paint : PaintMsg) (st : ServerState)
    (bytes : List Nat) (img : Img)
    (hdata : paint.data = Option.some bytes)
    (hdec : decode bytes = Option.some img)
    (hl0 : 0 ≤ paint.layerNumber)
    (hl1 : paint.layerNumber < (layerCount : Int))
    (hmode : paint.mode = "normal" ∨ paint.mode = "erase")
    (hx : 0 ≤ paint.x) (hy : 0 ≤ paint.y) :
    (∀ x0 y0 c, x0 < w → y0 < h → c < 4 →
      ¬(paint.x.toNat ≤ x0 ∧ x0 < min (paint.x.toNat + img.width) w
        ∧ paint.y.toNat ≤ y0 ∧ y0 < min (paint.y.toNat + img.height) h) →
      ((sendPaint decode selfId dataMode layerCount w h client paint
          st).st.layers.getD paint.layerNumber.toNat (fun _ => 0))
          (4 * (w * y0 + x0) + c)
        = (st.layers.getD paint.layerNumber.toNat (fun _ => 0))
            (4 * (w * y0 + x0) + c))
    ∧ ∀ m, m ≠ paint.layerNumber.toNat →
        (sendPaint decode selfId dataMode layerCount w h client paint
          st).st.layers.getD m (fun _ => 0)
          = st.layers.getD m (fun _ => 0) := by
  rw [sendPaint_accepted_st decode selfId dataMode layerCount w h client
    paint st bytes img hdata hdec hl0 hl1 hmode hx hy]
  constructor
  · intro x0 y0 c hxw hyh hc hout
    simp only
    by_cases hm : paint.layerNumber.toNat < st.layers.length
    · rw [getD_set_self hm]
      exact applyPatch_outside img.data _ (Nat.min_le_right _ _) hxw hc hout
    · rw [List.set_eq_of_length_le (by omega)]
  · intro m hm
    simp only
    exact getD_set_ne (fun e => hm e.symm)

/-- Witness for C2 at a concrete input: a 2-by-1 canvas with two blank
layers receives a 1-by-1 patch at the origin of layer 0; the pixel at
x = 1 and all of layer 1 are untouched. -/
theorem sendPaint_frame_witness :
    (0 : Nat) < 4
    ∧ (((sendPaint (fun _ => Option.some (Img.mk 1 1 (fun _ => 9))) "S"
          DataMode.none 2 2 1 Option.none
          (PaintMsg.mk 0 "normal" 0 0 (Option.some []))
          (ServerState.mk [] [] [] [fun _ => 0, fun _ => 0])).st.layers.getD 0
          (fun _ => 0)) (4 * (2 * 0 + 1) + 0)
        = ((ServerState.mk [] [] []
            [fun _ => 0, fun _ => 0]).layers.getD 0 (fun _ => 0))
            (4 * (2 * 0 + 1) + 0))
    ∧ ((sendPaint (fun _ => Option.some (Img.mk 1 1 (fun _ => 9))) "S"
          DataMode.none 2 2 1 Option.none
          (PaintMsg.mk 0 "normal" 0 0 (Option.some []))
          (ServerState.mk [] [] [] [fun _ => 0, fun _ => 0])).st.layers.getD 1
          (fun _ => 0)
        = (ServerState.mk [] [] []
            [fun _ => 0, fun _ => 0]).layers.getD 1 (fun _ => 0)) := by
  refine ⟨by decide, ?_, ?_⟩
  · exact (sendPaint_frame (fun _ => Option.some (Img.mk 1 1 (fun _ => 9)))
      "S" DataMode.none 2 2 1 Option.none
      (PaintMsg.mk 0 "normal" 0 0 (Option.some []))
      (ServerState.mk [] [] [] [fun _ => 0, fun _ => 0]) []
      (Img.mk 1 1 (fun _ => 9)) rfl rfl (by decide) (by decide) (Or.inl rfl)
      (by decide) (by decide)).1 1 0 0 (by decide) (by decide) (by decide)
      (by decide)
  · exact (sendPaint_frame (fun _ => Option.some (Img.mk 1 1 (fun _ => 9)))
      "S" DataMode.none 2 2 1 Option.none
      (PaintMsg.mk 0 "normal" 0 0 (Option.some []))
      (ServerState.mk [] [] [] [fun _ => 0, fun _ => 0]) []
      (Img.mk 1 1 (fun _ => 9)) rfl rfl (by decide) (by decide) (Or.inl rfl)
      (by decide) (by decide)).2 1 (by decide)

end Reichat

namespace Reichat

/-- `Math.round` of `num / 255` for non-negative `num`.  The source
computes `Math.round(((255 - a) / 255 * dst) + (a / 255 * src))`; the
exact value of the inner expression is `((255 - a) * dst + a * src) / 255`
and `Math.round v = ⌊v + 1/2⌋` for non-negative `v`, which on integers is
`(2 * num + 255) / 510`.  The exact value is never a half-integer (255 is
odd), and the double-precision rounding error of the source expression is
orders of magnitude below the distance `1/510` to the nearest rounding
boundary, so this integer form reproduces the source's bytes exactly. -/
def jsRound255 (num : Nat) : Nat := (2 * num + 255) / 510

/-- One alpha-blend step of one channel (src/src/index.ts lines 822-824):
`dst = round((255 - a)/255 · dst + a/255 · src)`. -/
def blendChannel (a d s : Nat) : Nat := jsRound255 ((255 - a) * d + a * s)

/-- The loop body of `Server.canvasToPng` for one pixel `(x, y)`: channels
R, G, B at base index `j = (w*y+x) << 2` are blended against the layer's
bytes using the layer's alpha `a = layer[j+3]`; the output alpha channel
`j+3` is never written (it keeps the initial fill of 255). -/
def blendPixel (w : Nat) (ldata : Buf) (buf : Buf) (p : Nat × Nat) : Buf :=
  fun k =>
    if k = 4 * (w * p.2 + p.1) then
      blendChannel (ldata (4 * (w * p.2 + p.1) + 3))
        (buf (4 * (w * p.2 + p.1))) (ldata (4 * (w * p.2 + p.1)))
    else if k = 4 * (w * p.2 + p.1) + 1 then
      blendChannel (ldata (4 * (w * p.2 + p.1) + 3))
        (buf (4 * (w * p.2 + p.1) + 1)) (ldata (4 * (w * p.2 + p.1) + 1))
    else if k = 4 * (w * p.2 + p.1) + 2 then
      blendChannel (ldata (4 * (w * p.2 + p.1) + 3))
        (buf (4 * (w * p.2 + p.1) + 2)) (ldata (4 * (w * p.2 + p.1) + 2))
    else buf k

/-- The double pixel loop of `Server.canvasToPng` for one layer. -/
def compositeLayer (w h : Nat) (buf : Buf) (ldata : Buf) : Buf :=
  (grid (natRange 0 w) (natRange 0 h)).foldl (blendPixel w ldata) buf

/-- `Server.canvasToPng` (src/src/index.ts lines 800-830): start from a
buffer filled with 255 (`img.data.fill(255)`) and composite every layer in
index order.  The loops only read the layer buffers, so flattening mutates
no layer; the final `img.pack()` PNG encoding is the external codec and is
not part of the engine. -/
def canvasToPng (w h : Nat) (layers : List Buf) : Buf :=
  layers.foldl (compositeLayer w h) (fun _ => 255)

/-- Spec-side definition for the refinement comparison of C3, following
the spec's words: per pixel and channel, start from opaque white (255) and
for each layer in index order replace the channel value `d` by
`round((255-a)/255 · d + a/255 · s)` where `a` is the layer's alpha at
that pixel and `s` the layer's value of that channel. -/
def flattenPixelSpec (w : Nat) (layers : List Buf) (x y c : Nat) : Nat :=
  layers.foldl
    (fun d ldata => blendChannel (ldata (4 * (w * y + x) + 3)) d
      (ldata (4 * (w * y + x) + c))) 255

lemma blendPixel_not_hit {w : Nat} {ldata buf : Buf} {p : Nat × Nat}
    {k : Nat} (h : ∀ c, c < 3 → k ≠ 4 * (w * p.2 + p.1) + c) :
    blendPixel w ldata buf p k = buf k := by
  have h0 : k ≠ 4 * (w * p.2 + p.1) := by
    have := h 0 (by omega); omega
  have h1 : k ≠ 4 * (w * p.2 + p.1) + 1 := h 1 (by omega)
  have h2 : k ≠ 4 * (w * p.2 + p.1) + 2 := h 2 (by omega)
  simp [blendPixel, h0, h1, h2]

lemma blendPixel_hit {w : Nat} {ldata buf : Buf} {x y c : Nat}
    (hc : c < 3) :
    blendPixel w ldata buf (x, y) (4 * (w * y + x) + c)
      = blendChannel (ldata (4 * (w * y + x) + 3))
          (buf (4 * (w * y + x) + c)) (ldata (4 * (w * y + x) + c)) := by
  have h3 : c = 0 ∨ c = 1 ∨ c = 2 := by omega
  simp only [blendPixel]
  rcases h3 with rfl | rfl | rfl
  · simp
  · rw [if_neg (by omega), if_pos rfl]
  · rw [if_neg (by omega), if_neg (by omega), if_pos rfl]

lemma compositeLayer_at {w h : Nat} (buf ldata : Buf) {x y c : Nat}
    (hx : x < w) (hy : y < h) (hc : c < 3) :
    compositeLayer w h buf ldata (4 * (w * y + x) + c)
      = blendChannel (ldata (4 * (w * y + x) + 3))
          (buf (4 * (w * y + x) + c)) (ldata (4 * (w * y + x) + c)) := by
  simp only [compositeLayer]
  apply foldl_apply_of_count_one (x, y)
    (G := fun d => blendChannel (ldata (4 * (w * y + x) + 3)) d
      (ldata (4 * (w * y + x) + c)))
  · rw [count_grid, count_natRange, count_natRange]
    simp [hx, hy]
  · rintro buf' ⟨a, b⟩ hp hne
    apply blendPixel_not_hit
    intro c' hc' hk
    rcases mem_grid.1 hp with ⟨hpx, hpy⟩
    rw [mem_natRange] at hpx hpy
    simp only at hpx hpy hk
    have haw : a < w := by omega
    rcases pixAddr_inj hx haw (by omega) (by omega) hk with ⟨e1, e2, _⟩
    exact hne (by simp [e1, e2])
  · intro buf'
    exact blendPixel_hit hc

lemma compositeLayer_alpha {w h : Nat} (buf ldata : Buf) {x y : Nat}
    (hx : x < w) :
    compositeLayer w h buf ldata (4 * (w * y + x) + 3)
      = buf (4 * (w * y + x) + 3) := by
  simp only [compositeLayer]
  apply foldl_apply_of_not_hit
  rintro buf' ⟨a, b⟩ hp
  apply blendPixel_not_hit
  intro c' hc' hk
  rcases mem_grid.1 hp with ⟨hpx, hpy⟩
  rw [mem_natRange] at hpx hpy
  simp only at hpx hpy hk
  have haw : a < w := by omega
  rcases pixAddr_inj hx haw (by omega) (by omega) hk with ⟨_, _, e3⟩
  omega

lemma canvasToPng_foldl {w h : Nat} {x y c : Nat}
    (hx : x < w) (hy : y < h) (hc : c < 3) :
    ∀ (layers : List Buf) (buf : Buf),
      (layers.foldl (compositeLayer w h) buf) (4 * (w * y + x) + c)
        = layers.foldl
            (fun d ldata => blendChannel (ldata (4 * (w * y + x) + 3)) d
              (ldata (4 * (w * y + x) + c))) (buf (4 * (w * y + x) + c)) := by
  intro layers
  induction layers with
  | nil => intro buf; rfl
  | cons ldata rest ih =>
    intro buf
    rw [List.foldl_cons, List.foldl_cons, ih, compositeLayer_at buf ldata hx hy hc]

lemma blendChannel_zero (d s : Nat) : blendChannel 0 d s = d := by
  have h : (255 - 0) * d + 0 * s = 255 * d := by ring
  rw [blendChannel, jsRound255, h]
  have h2 : 2 * (255 * d) + 255 = 510 * d + 255 := by ring
  rw [h2, Nat.mul_add_div (by omega)]
  simp

/-- C3: `canvasToPng` computes, per pixel and channel, exactly the spec's
compositing fold — start from an all-255 buffer and per layer in index
order replace each of R, G, B by `round((255-a)/255 · dst + a/255 · src)`;
the output alpha channel keeps the initial 255; and if every layer's alpha
at the pixel is zero (an all-transparent canvas), the output pixel is
white (255, 255, 255).  The embedded flatten only reads the layer buffers,
mirroring the source loops, so no layer is mutated. -/
theorem canvasToPng_spec (w h : Nat) (layers : List Buf) (x y c : Nat)
    (hx : x < w) (hy : y < h) :
    (c < 3 → canvasToPng w h layers (4 * (w * y + x) + c)
        = flattenPixelSpec w layers x y c)
    ∧ canvasToPng w h layers (4 * (w * y + x) + 3) = 255
    ∧ ((∀ ldata ∈ layers, ldata (4 * (w * y + x) + 3) = 0) → c < 3 →
        canvasToPng w h layers (4 * (w * y + x) + c) = 255) := by
  have hstep : ∀ (ls : List Buf) (buf : Buf),
      (ls.foldl (compositeLayer w h) buf) (4 * (w * y + x) + 3)
        = buf (4 * (w * y + x) + 3) := by
    intro ls
    induction ls with
    | nil => intro buf; rfl
    | cons l2 r2 ih2 =>
      intro buf
      rw [List.foldl_cons, ih2, compositeLayer_alpha buf l2 hx]
  refine ⟨?_, ?_, ?_⟩
  · intro hc
    rw [canvasToPng, canvasToPng_foldl hx hy hc, flattenPixelSpec]
  · rw [canvasToPng, hstep layers]
  · intro htrans hc
    have htr : ∀ ls : List Buf, (∀ l ∈ ls, l (4 * (w * y + x) + 3) = 0) →
        ls.foldl
          (fun d ldata => blendChannel (ldata (4 * (w * y + x) + 3)) d
            (ldata (4 * (w * y + x) + c))) 255 = 255 := by
      intro ls
      induction ls with
      | nil => intro _; rfl
      | cons l2 r2 ih2 =>
        intro hall
        rw [List.foldl_cons, hall l2 (by simp), blendChannel_zero]
        exact ih2 (fun l hl => hall l (by simp [hl]))
    rw [canvasToPng, canvasToPng_foldl hx hy hc]
    exact htr layers htrans

/-- Witness for C3 at a concrete input: a 1-by-1 canvas with a single
all-transparent layer flattens to white at channel R. -/
theorem canvasToPng_spec_witness :
    (0 : Nat) < 1
    ∧ canvasToPng 1 1 [fun _ => 0] (4 * (1 * 0 + 0) + 0)
        = flattenPixelSpec 1 [fun _ => 0] 0 0 0
    ∧ canvasToPng 1 1 [fun _ => 0] (4 * (1 * 0 + 0) + 0) = 255 := by
  refine ⟨by decide, ?_, ?_⟩
  · exact (canvasToPng_spec 1 1 [fun _ => 0] 0 0 0 (by decide)
      (by decide)).1 (by decide)
  · exact (canvasToPng_spec 1 1 [fun _ => 0] 0 0 0 (by decide)
      (by decide)).2.2 (by intro l hl; simp at hl; simp [hl]) (by decide)

end Reichat

namespace Reichat

/-- True when every character of the string is whitespace; the source's
check `message.trim() === ''` holds exactly for such strings. -/
def jsAllWhitespace (s : String) : Bool := s.data.all Char.isWhitespace

/-- `Server.sendChat` (src/src/index.ts lines 1001-1030).  `now` stands
for `Date.now()`.  A `client` of `none` embeds the null reference a socket
has before a successful bind: the source dereferences it (`client.server`
in Redis mode, otherwise `clientToDistributable`) after validation but
before any emission, so a valid message yields a `TypeError` and no
output. -/
def sendChat (selfId : String) (dataMode : DataMode) (now : Nat)
    (client : Option Client) (chat : ChatMsg) (st : ServerState) :
    StepResult :=
  match chat.message with
  | Option.none => ⟨st, [], false⟩
  | Option.some msg =>
    if jsAllWhitespace msg then ⟨st, [], false⟩
    else if 256 < msg.length then ⟨st, [], false⟩
    else
      match client with
      | Option.none => ⟨st, [], true⟩
      | Option.some c =>
        ⟨st,
          (if dataMode = DataMode.redis ∧ c.server = selfId then
            [Action.publishChat c msg now]
           else [])
          ++ [Action.emitChat (Option.some (clientToDistributable c)) msg
            (if chat.time = 0 then now else chat.time)], false⟩

/-- One point check of the `sendStroke` validation loop (src/src/index.ts
lines 921-939): a point must carry at least three numbers with
`x, y ≥ 0`, `pressure > 0`, `x ≤ canvasWidth`, `y ≤ canvasHeight` (a
shorter point reads `undefined`, which fails the `isNaN` test). -/
def strokePointOk (w h : Nat) (p : List Int) : Bool :=
  decide (3 ≤ p.length) && decide (0 ≤ p.getD 0 0)
    && decide (0 ≤ p.getD 1 0) && decide (0 < p.getD 2 0)
    && decide (p.getD 0 0 ≤ (w : Int)) && decide (p.getD 1 0 ≤ (h : Int))

/-- The in-place point normalisation of the same loop: a truthy fourth
element is spliced out (`point.splice(3, 1)`); the coordinate roundings
are the identity on the integers embedded here. -/
def processPoint (p : List Int) : List Int :=
  if p.getD 3 0 ≠ 0 then p.take 3 ++ p.drop 4 else p

/-- `Server.sendStroke` (src/src/index.ts lines 914-962).  `client = none`
embeds the null reference before a bind: the source reaches
`client.server.id` right after the validation loop, so a well-formed
stroke yields a `TypeError` and no output. -/
def sendStroke (selfId : String) (dataMode : DataMode) (w h : Nat)
    (client : Option Client) (stroke : StrokeMsg) (st : ServerState) :
    StepResult :=
  match stroke.points with
  | Option.none => ⟨st, [], false⟩
  | Option.some pts =>
    if pts.all (strokePointOk w h) then
      match client with
      | Option.none => ⟨st, [], true⟩
      | Option.some c =>
        ⟨st,
          (if c.server = selfId ∧ dataMode = DataMode.redis then
            [Action.publishStroke c (pts.map processPoint)]
           else [])
          ++ [Action.strokeFanout ((st.socketMap.lookup c.uuid).isSome)
            (clientToDistributable c) (pts.map processPoint)], false⟩
    else ⟨st, [], false⟩

/-- `Server.sendPointer` (src/src/index.ts lines 964-999); the `-1`
sentinel means off-canvas.  `client = none` embeds the null reference
before a bind and yields a `TypeError` right after validation. -/
def sendPointer (selfId : String) (dataMode : DataMode) (w h : Nat)
    (client : Option Client) (p : PointerMsg) (st : ServerState) :
    StepResult :=
  if p.x < -1 ∨ p.y < -1 ∨ (w : Int) < p.x ∨ (h : Int) < p.y then
    ⟨st, [], false⟩
  else
    match client with
    | Option.none => ⟨st, [], true⟩
    | Option.some c =>
      ⟨st,
        (if c.server = selfId ∧ dataMode = DataMode.redis then
          [Action.publishPointer c p]
         else [])
        ++ [Action.pointerFanout ((st.socketMap.lookup c.uuid).isSome)
          (clientToDistributable c) p.x p.y], false⟩

/-- `Server.sendSystemMessage` (src/src/index.ts lines 1032-1046): when no
originating server is given and the data mode is Redis, publish on the
`system` channel; always emit a `chat` frame with no client field. -/
def sendSystemMessage (dataMode : DataMode) (now : Nat) (message : String)
    (server : Option String) (st : ServerState) : StepResult :=
  ⟨st,
    (if server = Option.none ∧ dataMode = DataMode.redis then
      [Action.publishSystem message]
     else []) ++ [Action.emitChat Option.none message now], false⟩

/-- JS object-key assignment `m[k] = v` on the string-keyed socket index:
any existing entry for `k` is replaced. -/
def mapSet (k : String) (v : Nat) (m : List (String × Nat)) :
    List (String × Nat) :=
  m.filter (fun e => e.1 ≠ k) ++ [(k, v)]

/-- `m[k] = v` for the uuid-to-client map. -/
def cmapSet (k : String) (v : Client) (m : List (String × Client)) :
    List (String × Client) :=
  m.filter (fun e => e.1 ≠ k) ++ [(k, v)]

/-- `delete m[k]` on the socket index. -/
def mapDelete (k : String) (m : List (String × Nat)) :
    List (String × Nat) :=
  m.filter (fun e => e.1 ≠ k)

/-- The shared prologue of the `client` handler and of the `disconnect`
listener (src/src/index.ts lines 709-713 and 734-739): when the socket has
a bound client whose uuid is in the socket index, remove that index entry
and mark the record offline.  The `isOnline` mutation is applied by uuid
in the roster and the client map, matching the JS aliasing of the shared
record object. -/
def unbindCurrent (bound : Option String) (st : ServerState) : ServerState :=
  match bound with
  | Option.none => st
  | Option.some u =>
    if (st.socketMap.lookup u).isSome then
      { st with
          socketMap := mapDelete u st.socketMap,
          clients := st.clients.map (fun c =>
            if c.uuid = u then { c with isOnline := false } else c),
          clientMap := st.clientMap.map (fun e =>
            if e.2.uuid = u then (e.1, { e.2 with isOnline := false })
            else e) }
    else st

/-- The record-field assignments of a successful bind (src/src/index.ts
lines 768-770): `client.name`, `client.remoteAddr`, `client.isOnline`,
applied by uuid in roster and client map (JS aliasing). -/
def setClientFields (u name addr : String) (st : ServerState) :
    ServerState :=
  { st with
      clients := st.clients.map (fun c =>
        if c.uuid = u then
          { c with name := name, remoteAddr := addr, isOnline := true }
        else c),
      clientMap := st.clientMap.map (fun e =>
        if e.2.uuid = u then
          (e.1,
           { e.2 with
              name := name
              remoteAddr := addr
              isOnline := true })
        else e) }

/-- The epilogue of a successful bind (src/src/index.ts lines 774-791):
reply the credentials to the binder, publish the local client set in Redis
mode, broadcast the roster to every socket, and emit the join system chat
(which itself publishes in Redis mode). -/
def bindEpilogue (selfId : String) (dataMode : DataMode) (now sock : Nat)
    (c : Client) (st : ServerState) : List Action :=
  [Action.emitClientInfo sock c.uuid c.name c.pin]
    ++ (if dataMode = DataMode.redis then
         [Action.publishProvide
           (st.clients.filter (fun x => x.server = selfId))]
        else [])
    ++ [Action.emitClients (distributableClients st.clients)]
    ++ (if dataMode = DataMode.redis then
         [Action.publishSystem ("! " ++ c.name ++ " has join.")]
        else [])
    ++ [Action.emitChat Option.none ("! " ++ c.name ++ " has join.") now]

/-- The uuid length pre-check of the `client` handler (src/src/index.ts
line 741): rejected when the uuid is truthy (present and non-empty) and
its length is not 36. -/
def uuidLenBad : Option String → Bool
  | Option.some u => decide (u ≠ "") && decide (u.length ≠ 36)
  | Option.none => false

/-- The `client` event handler (src/src/index.ts lines 732-792).  `bound`
is the socket's current bound client uuid (the closure variable `client`,
`none` before the first successful bind); the returned `Option String` is
its value afterwards.  `freshUuid` and `freshPin` are oracle inputs
standing for `uuid.v1()` and `uuid.v4()`.  Note the source runs the
unbind prologue before any validation, and a falsy (empty) uuid skips both
the length check and the reuse lookup. -/
def clientHandler (selfId : String) (dataMode : DataMode) (sock : Nat)
    (bound : Option String) (inp : BindInput)
    (freshUuid freshPin remoteAddr : String) (now : Nat)
    (st : ServerState) : StepResult × Option String :=
  let st1 := unbindCurrent bound st
  if uuidLenBad inp.uuid then (⟨st1, [], false⟩, bound)
  else if inp.name = "" ∨ 16 < inp.name.length then
    (⟨st1, [], false⟩, bound)
  else
    let found : Option Client :=
      match inp.uuid with
      | Option.some u =>
        if u ≠ "" then st1.clientMap.lookup u else Option.none
      | Option.none => Option.none
    let reuse : Option Client :=
      match found with
      | Option.some r =>
        if inp.pin = Option.some r.pin then Option.some r else Option.none
      | Option.none => Option.none
    match reuse with
    | Option.some r =>
      let oldSock := st1.socketMap.lookup r.uuid
      let st2 :=
        match oldSock with
        | Option.some _ =>
          { st1 with socketMap := mapDelete r.uuid st1.socketMap }
        | Option.none => st1
      let st3 := setClientFields r.uuid inp.name remoteAddr st2
      let st4 := { st3 with socketMap := mapSet r.uuid sock st3.socketMap }
      (⟨st4,
        (match oldSock with
         | Option.some s => [Action.disconnectSocket s]
         | Option.none => [])
        ++ bindEpilogue selfId dataMode now sock
          { r with
             name := inp.name
             remoteAddr := remoteAddr
             isOnline := true } st4, false⟩,
       Option.some r.uuid)
    | Option.none =>
      let newc : Client :=
        ⟨freshUuid, inp.name, freshPin, remoteAddr, true, selfId⟩
      let st2 := { st1 with
        clientMap := cmapSet freshUuid newc st1.clientMap,
        clients := st1.clients ++ [newc] }
      let st3 := { st2 with socketMap := mapSet freshUuid sock st2.socketMap }
      (⟨st3, bindEpilogue selfId dataMode now sock newc st3, false⟩,
       Option.some freshUuid)

/-- The socket `disconnect` listener (src/src/index.ts lines 707-730):
with a bound client, clear its socket-index entry and mark it offline,
publish the local client set in Redis mode, broadcast the roster and emit
the leave system chat. -/
def disconnectHandler (selfId : String) (dataMode : DataMode) (now : Nat)
    (bound : Option String) (st : ServerState) : StepResult :=
  match bound with
  | Option.none => ⟨st, [], false⟩
  | Option.some u =>
    let st2 := unbindCurrent (Option.some u) st
    let nm := ((st2.clients.find? (fun c => c.uuid = u)).map
      (fun c => c.name)).getD ""
    ⟨st2,
      (if dataMode = DataMode.redis then
        [Action.publishProvide
          (st2.clients.filter (fun x => x.server = selfId))]
       else [])
      ++ [Action.emitClients (distributableClients st2.clients)]
      ++ (if dataMode = DataMode.redis then
           [Action.publishSystem ("! " ++ nm ++ " has left.")]
          else [])
      ++ [Action.emitChat Option.none ("! " ++ nm ++ " has left.") now],
      false⟩

end Reichat

namespace Reichat

/-- The `body` of a broker frame, as the typed payloads the listener
dispatches to the handlers; any other constructor embeds a frame whose
JSON body does not have the shape the handler reads. -/
inductive RBody where
  | empty
  | clientsBody (cs : List Client)
  | textBody (s : String)
  | chatBody (m : ChatMsg)
  | paintBody (p : PaintMsg)
  | strokeBody (s : StrokeMsg)
  | pointerBody (p : PointerMsg)
  deriving DecidableEq, Repr

/-- A broker frame, `IRedisMessage` (src/src/index.ts lines 96-101):
`publishRedis` stamps every outgoing frame with the origin server id;
`target` embeds `ECollectProvideTarget` (`some 0` = `Clients`). -/
structure RedisMessage where
  server : String
  target : Option Nat
  client : Option Client
  body : RBody
  deriving DecidableEq, Repr

/-- `Server.redisMessageListener` (src/src/index.ts lines 546-593): parse
the frame, drop it when its origin id equals our own id (loopback
suppression, before any channel dispatch), else dispatch on the channel
name (the configurable key string the source strips from the channel is
taken as `""` here).  Frames with a malformed body follow the source: the
`provide` arm runs the removal loop and then throws on `undefined.filter`;
the `paint` arm throws on `new Buffer(data.body.data)`; `chat`, `stroke`
and `pointer` fail their handlers' validation silently; `system` emits
whatever it got. -/
def redisMessageListener (decode : List Nat → Option Img) (selfId : String)
    (dataMode : DataMode) (layerCount w h : Nat) (now : Nat)
    (channel : String) (data : RedisMessage) (st : ServerState) :
    StepResult :=
  if data.server = selfId then ⟨st, [], false⟩
  else if channel = "ping" then ⟨st, [Action.publishPong], false⟩
  else if channel = "collect" then
    if data.target = Option.some 0 then
      ⟨st, [Action.publishProvide
        (st.clients.filter (fun c => c.server = selfId))], false⟩
    else ⟨st, [], false⟩
  else if channel = "provide" then
    if data.target = Option.some 0 then
      match data.body with
      | RBody.clientsBody cs =>
        let st2 := { st with
          clients := updateClientsByServer data.server cs st.clients }
        ⟨st2, [Action.emitClients (distributableClients st2.clients)], false⟩
      | _ =>
        ⟨{ st with clients := removeClientsOfServer data.server st.clients },
          [], true⟩
    else ⟨st, [], false⟩
  else if channel = "system" then
    match data.body with
    | RBody.textBody s =>
      sendSystemMessage dataMode now s (Option.some data.server) st
    | _ => sendSystemMessage dataMode now "" (Option.some data.server) st
  else if channel = "chat" then
    match data.body with
    | RBody.chatBody m => sendChat selfId dataMode now data.client m st
    | _ => sendChat selfId dataMode now data.client ⟨Option.none, 0⟩ st
  else if channel = "paint" then
    match data.body with
    | RBody.paintBody p =>
      sendPaint decode selfId dataMode layerCount w h data.client p st
    | _ => ⟨st, [], true⟩
  else if channel = "stroke" then
    match data.body with
    | RBody.strokeBody s2 =>
      sendStroke selfId dataMode w h data.client s2 st
    | _ => sendStroke selfId dataMode w h data.client ⟨Option.none⟩ st
  else if channel = "pointer" then
    match data.body with
    | RBody.pointerBody p =>
      sendPointer selfId dataMode w h data.client p st
    | _ => ⟨st, [], false⟩
  else ⟨st, [], false⟩

/-- C8: loopback suppression — a broker frame whose carried origin server
id equals the receiving server's own id is never applied to that server's
state: on every channel the listener performs no roster change, no layer
change, no socket emission, no re-publish, and no error. -/
theorem redisMessageListener_loopback (decode : List Nat → Option Img)
    (selfId : String) (dataMode : DataMode) (layerCount w h : Nat)
    (now : Nat) (channel : String) (data : RedisMessage) (st : ServerState)
    (hself : data.server = selfId) :
    redisMessageListener decode selfId dataMode layerCount w h now channel
      data st = ⟨st, [], false⟩ := by
  rw [redisMessageListener, if_pos hself]

/-- Witness for C8 at a concrete input: a `provide` frame carrying the
receiver's own id and a roster entry is dropped without effect. -/
theorem redisMessageListener_loopback_witness :
    (RedisMessage.mk "S" (Option.some 0) Option.none
        (RBody.clientsBody [Client.mk "u" "n" "p" "" true "S"])).server = "S"
    ∧ redisMessageListener (fun _ => Option.none) "S" DataMode.redis 3 4 4 0
        "provide"
        (RedisMessage.mk "S" (Option.some 0) Option.none
          (RBody.clientsBody [Client.mk "u" "n" "p" "" true "S"]))
        (ServerState.mk [] [] [] [])
      = ⟨ServerState.mk [] [] [] [], [], false⟩ :=
  ⟨rfl,
    redisMessageListener_loopback (fun _ => Option.none) "S" DataMode.redis
      3 4 4 0 "provide"
      (RedisMessage.mk "S" (Option.some 0) Option.none
        (RBody.clientsBody [Client.mk "u" "n" "p" "" true "S"]))
      (ServerState.mk [] [] [] []) rfl⟩

end Reichat

namespace Reichat

/-- The chat validation failures (src/src/index.ts lines 1003-1009). -/
def chatRejected (chat : ChatMsg) : Prop :=
  chat.message = Option.none
    ∨ ∃ s, chat.message = Option.some s
        ∧ (jsAllWhitespace s = true ∨ 256 < s.length)

/-- The paint validation failures (src/src/index.ts lines 834-857): bad
layer number, bad mode, non-buffer data, negative coordinates, or a patch
the codec cannot parse. -/
def paintRejected (decode : List Nat → Option Img) (layerCount : Nat)
    (p : PaintMsg) : Prop :=
  p.layerNumber < 0 ∨ (layerCount : Int) ≤ p.layerNumber
    ∨ (p.mode ≠ "normal" ∧ p.mode ≠ "erase")
    ∨ p.data = Option.none ∨ p.x < 0 ∨ p.y < 0
    ∨ ∃ b, p.data = Option.some b ∧ decode b = Option.none

/-- The stroke validation failures (src/src/index.ts lines 916-939). -/
def strokeRejected (w h : Nat) (s : StrokeMsg) : Prop :=
  s.points = Option.none
    ∨ ∃ pts, s.points = Option.some pts
        ∧ pts.all (strokePointOk w h) = false

/-- The pointer validation failures (src/src/index.ts lines 966-975). -/
def pointerRejected (w h : Nat) (p : PointerMsg) : Prop :=
  p.x < -1 ∨ p.y < -1 ∨ (w : Int) < p.x ∨ (h : Int) < p.y

/-- The `client` bind validation failures (src/src/index.ts lines
741-747): a truthy uuid of length ≠ 36, or a falsy name, or a name longer
than 16. -/
def bindRejected (inp : BindInput) : Prop :=
  uuidLenBad inp.uuid = true ∨ inp.name = "" ∨ 16 < inp.name.length

/-- C5 (amended): every inbound `chat`, `paint`, `stroke` or `pointer`
event that fails validation is rejected silently with zero side effects —
state unchanged, nothing emitted or published, no disconnect, no error —
and a `client` event that fails validation likewise emits nothing and
keeps the bound-client association, except that the source first runs the
unbind prologue: on a socket that already has a bound client, that
client's socket-index entry is removed and its record marked offline even
though the event is then rejected (`unbindCurrent`; on a socket with no
bound client this is the identity and the claim's zero-side-effect
statement holds in full). -/
theorem malformed_events_silent (selfId : String) (dataMode : DataMode)
    (decode : List Nat → Option Img) (layerCount w h now : Nat) :
    (∀ client chat st, chatRejected chat →
      sendChat selfId dataMode now client chat st = ⟨st, [], false⟩)
    ∧ (∀ client paint st, paintRejected decode layerCount paint →
      sendPaint decode selfId dataMode layerCount w h client paint st
        = ⟨st, [], false⟩)
    ∧ (∀ client stroke st, strokeRejected w h stroke →
      sendStroke selfId dataMode w h client stroke st = ⟨st, [], false⟩)
    ∧ (∀ client p st, pointerRejected w h p →
      sendPointer selfId dataMode w h client p st = ⟨st, [], false⟩)
    ∧ (∀ sock bound inp freshUuid freshPin addr st, bindRejected inp →
      clientHandler selfId dataMode sock bound inp freshUuid freshPin addr
        now st = (⟨unbindCurrent bound st, [], false⟩, bound)) := by
  refine ⟨?_, ?_, ?_, ?_, ?_⟩
  · intro client chat st hr
    rcases hr with hm | ⟨s, hs, h2⟩
    · simp [sendChat, hm]
    · simp only [sendChat, hs]
      rcases h2 with hw | hl
      · rw [if_pos hw]
      · by_cases hw2 : jsAllWhitespace s = true
        · rw [if_pos hw2]
        · rw [if_neg hw2, if_pos hl]
  · intro client paint st hr
    rw [sendPaint]
    by_cases g1 : paint.layerNumber < 0 ∨ (layerCount : Int) ≤ paint.layerNumber
    · rw [if_pos g1]
    · rw [if_neg g1]
      by_cases g2 : paint.mode ≠ "normal" ∧ paint.mode ≠ "erase"
      · rw [if_pos g2]
      · rw [if_neg g2]
        cases hd : paint.data with
        | none => simp only [hd]
        | some bytes =>
          simp only [hd]
          by_cases g3 : paint.x < 0 ∨ paint.y < 0
          · rw [if_pos g3]
          · rw [if_neg g3]
            cases hdec : decode bytes with
            | none => simp only [hdec]
            | some img =>
              exfalso
              rcases hr with hh | hh | hh | hh | hh | hh | ⟨b, hb, hh⟩
              · exact g1 (Or.inl hh)
              · exact g1 (Or.inr hh)
              · exact g2 hh
              · rw [hd] at hh; exact Option.noConfusion hh
              · exact g3 (Or.inl hh)
              · exact g3 (Or.inr hh)
              · rw [hd] at hb
                injection hb with e
                subst e
                rw [hh] at hdec
                exact Option.noConfusion hdec
  · intro client stroke st hr
    rcases hr with hp | ⟨pts, hp, hall⟩
    · simp [sendStroke, hp]
    · simp only [sendStroke, hp]
      rw [if_neg (by simp [hall])]
  · intro client p st hr
    unfold pointerRejected at hr
    simp only [sendPointer]
    rw [if_pos hr]
  · intro sock bound inp freshUuid freshPin addr st hr
    rcases hr with hu | hn
    · simp only [clientHandler]
      rw [if_pos hu]
    · by_cases hu : uuidLenBad inp.uuid = true
      · simp only [clientHandler]
        rw [if_pos hu]
      · simp only [clientHandler]
        rw [if_neg hu, if_pos hn]

/-- Witness for C5 at concrete inputs: a whitespace-only chat and an
unbound malformed bind are both no-ops. -/
theorem malformed_events_silent_witness :
    chatRejected (ChatMsg.mk (Option.some "   ") 0)
    ∧ sendChat "S" DataMode.none 7 Option.none
        (ChatMsg.mk (Option.some "   ") 0) (ServerState.mk [] [] [] [])
      = ⟨ServerState.mk [] [] [] [], [], false⟩
    ∧ clientHandler "S" DataMode.none 1 Option.none
        (BindInput.mk Option.none Option.none "") "uF" "pF" "" 0
        (ServerState.mk [] [] [] [])
      = (⟨unbindCurrent Option.none (ServerState.mk [] [] [] []), [],
          false⟩, Option.none) := by
  refine ⟨?_, ?_, ?_⟩
  · exact Or.inr ⟨"   ", rfl, Or.inl (by decide)⟩
  · exact (malformed_events_silent "S" DataMode.none (fun _ => Option.none)
      3 4 4 7).1 Option.none (ChatMsg.mk (Option.some "   ") 0)
      (ServerState.mk [] [] [] [])
      (Or.inr ⟨"   ", rfl, Or.inl (by decide)⟩)
  · exact (malformed_events_silent "S" DataMode.none (fun _ => Option.none)
      3 4 4 0).2.2.2.2 1 Option.none (BindInput.mk Option.none Option.none "")
      "uF" "pF" "" (ServerState.mk [] [] [] []) (Or.inr (Or.inl rfl))

/-- Counterexample for C5 as stated: on a socket that already has a bound
client (uuid `uA`, indexed to socket 1, online), a malformed `client`
event (empty name) is rejected — yet the socket index loses the entry and
the record is marked offline: the side effects are not zero. -/
theorem malformed_client_event_side_effect :
    (ServerState.mk [Client.mk "uA" "a" "pa" "" true "S"]
        [("uA", Client.mk "uA" "a" "pa" "" true "S")] [("uA", 1)]
        []).socketMap = [("uA", 1)]
    ∧ (clientHandler "S" DataMode.none 1 (Option.some "uA")
        (BindInput.mk Option.none Option.none "") "uF" "pF" "" 0
        (ServerState.mk [Client.mk "uA" "a" "pa" "" true "S"]
          [("uA", Client.mk "uA" "a" "pa" "" true "S")] [("uA", 1)]
          [])).1.st.socketMap = []
    ∧ (clientHandler "S" DataMode.none 1 (Option.some "uA")
        (BindInput.mk Option.none Option.none "") "uF" "pF" "" 0
        (ServerState.mk [Client.mk "uA" "a" "pa" "" true "S"]
          [("uA", Client.mk "uA" "a" "pa" "" true "S")] [("uA", 1)]
          [])).1.st.clients.map (fun c => c.isOnline) = [false] := by
  refine ⟨rfl, ?_, ?_⟩ <;> decide

/-- C6 (what the code actually does): events received before a successful
`client` bind are *not* all dropped silently.  A `pointer`, `chat` or
`stroke` event that passes validation reaches a dereference of the null
bound client (`client.server.id` / `clientToDistributable`) and throws a
`TypeError` without emitting; a valid `paint` event first applies the
patch to the layer and then throws. -/
theorem unbound_events_throw :
    ((sendPointer "S" DataMode.none 100 100 Option.none (PointerMsg.mk 0 0)
        (ServerState.mk [] [] [] [])).err = true
      ∧ (sendPointer "S" DataMode.none 100 100 Option.none
          (PointerMsg.mk 0 0) (ServerState.mk [] [] [] [])).out = [])
    ∧ ((sendChat "S" DataMode.none 5 Option.none
        (ChatMsg.mk (Option.some "hi") 0)
        (ServerState.mk [] [] [] [])).err = true)
    ∧ ((sendStroke "S" DataMode.none 100 100 Option.none
        (StrokeMsg.mk (Option.some []))
        (ServerState.mk [] [] [] [])).err = true)
    ∧ ((sendPaint (fun _ => Option.some (Img.mk 1 1 (fun _ => 7))) "S"
        DataMode.none 1 2 2 Option.none
        (PaintMsg.mk 0 "normal" 0 0 (Option.some []))
        (ServerState.mk [] [] [] [fun _ => 0])).err = true)
    ∧ ((sendPaint (fun _ => Option.some (Img.mk 1 1 (fun _ => 7))) "S"
        DataMode.none 1 2 2 Option.none
        (PaintMsg.mk 0 "normal" 0 0 (Option.some []))
        (ServerState.mk [] [] [] [fun _ => 0])).st.layers.getD 0
        (fun _ => 0)) (4 * (2 * 0 + 0) + 0) = 7 := by
  refine ⟨⟨?_, ?_⟩, ?_, ?_, ?_, ?_⟩ <;> decide

end Reichat

namespace Reichat

/-- The uuid list of the roster, in roster order. -/
def rosterUuids (st : ServerState) : List String :=
  st.clients.map (fun c => c.uuid)

/-- A roster-relevant engine event: a `client` bind attempt on some
socket, a socket disconnect, an incoming peer `provide` frame, and a
dead-server prune (the liveness timeout of `subscribeRedis`). -/
inductive Ev where
  | bind (sock : Nat) (bound : Option String) (inp : BindInput)
      (freshUuid freshPin addr : String)
  | disc (bound : Option String)
  | provide (peer : String) (cs : List Client)
  | prune (ids : List String)
  deriving DecidableEq, Repr

/-- One engine step on the roster state.  The bind and disconnect handlers
change the state independently of the data mode and clock, which are fixed
here; `provide` frames pass through the listener's loopback check; the
prune keeps exactly the records whose hosting server is not in the
timed-out list (src/src/index.ts lines 505-507). -/
def stepEv (selfId : String) (st : ServerState) : Ev → ServerState
  | Ev.bind sock bound inp freshUuid freshPin addr =>
    ((clientHandler selfId DataMode.none sock bound inp freshUuid freshPin
      addr 0 st).1).st
  | Ev.disc bound => (disconnectHandler selfId DataMode.none 0 bound st).st
  | Ev.provide peer cs =>
    if peer = selfId then st
    else { st with clients := updateClientsByServer peer cs st.clients }
  | Ev.prune ids =>
    { st with clients := st.clients.filter (fun c => c.server ∉ ids) }

/-- The state of a freshly constructed server: empty roster, empty maps,
blank layers (`new Buffer(..).fill(0)`). -/
def initState (layerCount : Nat) : ServerState :=
  ⟨[], [], [], List.replicate layerCount (fun _ => 0)⟩

/-- The roster state reached by a sequence of events from a fresh
server. -/
def runTrace (selfId : String) (tr : List Ev) : ServerState :=
  tr.foldl (stepEv selfId) (initState 0)

/-- Well-formedness of one event at the state it fires in: a bind's
freshly generated uuid is globally fresh (`uuid.v1()`), and an applied
peer `provide` list carries no duplicate uuid for that peer and no uuid
colliding with a record of a different server. -/
def evWF (_selfId : String) (st : ServerState) : Ev → Bool
  | Ev.bind _ _ _ freshUuid _ _ => decide (freshUuid ∉ rosterUuids st)
  | Ev.disc _ => true
  | Ev.provide peer cs =>
    decide (((cs.filter (fun c => c.server = peer)).map
        (fun c => c.uuid)).Nodup)
      && (cs.filter (fun c => c.server = peer)).all (fun c =>
           st.clients.all (fun c2 =>
             decide (c2.server = peer) || decide (c2.uuid ≠ c.uuid)))
  | Ev.prune _ => true

/-- A trace is well formed when every event is well formed at the state
it fires in. -/
def traceWF (selfId : String) (st : ServerState) : List Ev → Bool
  | [] => true
  | e :: tr => evWF selfId st e && traceWF selfId (stepEv selfId st e) tr

lemma uuids_map_preserve {f : Client → Client}
    (hf : ∀ c, (f c).uuid = c.uuid) (l : List Client) :
    (l.map f).map (fun c => c.uuid) = l.map (fun c => c.uuid) := by
  induction l with
  | nil => rfl
  | cons c rest ih => simp [hf, ih]

lemma uuids_unbind (bound : Option String) (st : ServerState) :
    rosterUuids (unbindCurrent bound st) = rosterUuids st := by
  cases bound with
  | none => rfl
  | some u =>
    rw [unbindCurrent]
    by_cases h : (st.socketMap.lookup u).isSome
    · rw [if_pos h]
      simp only [rosterUuids]
      exact uuids_map_preserve
        (fun c => by by_cases hc : c.uuid = u <;> simp [hc]) _
    · rw [if_neg h]

lemma uuids_setClientFields (u nm addr : String) (st : ServerState) :
    rosterUuids (setClientFields u nm addr st) = rosterUuids st := by
  simp only [setClientFields, rosterUuids]
  exact uuids_map_preserve
    (fun c => by by_cases hc : c.uuid = u <;> simp [hc]) _

lemma clientHandler_uuids (selfId : String) (dm : DataMode) (sock : Nat)
    (bound : Option String) (inp : BindInput) (fu fp addr : String)
    (now : Nat) (st : ServerState) :
    rosterUuids ((clientHandler selfId dm sock bound inp fu fp addr now
        st).1.st) = rosterUuids (unbindCurrent bound st)
    ∨ rosterUuids ((clientHandler selfId dm sock bound inp fu fp addr now
        st).1.st) = rosterUuids (unbindCurrent bound st) ++ [fu] := by
  simp only [clientHandler]
  by_cases h1 : uuidLenBad inp.uuid = true
  · rw [if_pos h1]; left; rfl
  · rw [if_neg h1]
    by_cases h2 : inp.name = "" ∨ 16 < inp.name.length
    · rw [if_pos h2]; left; rfl
    · rw [if_neg h2]
      cases hu : inp.uuid with
      | none =>
        right
        simp [rosterUuids]
      | some u =>
        simp only
        by_cases hue : u ≠ ""
        · rw [if_pos hue]
          cases hlk : (unbindCurrent bound st).clientMap.lookup u with
          | none =>
            right
            simp [rosterUuids]
          | some r =>
            simp only
            by_cases hpin : inp.pin = Option.some r.pin
            · rw [if_pos hpin]
              simp only
              left
              cases hsk : (unbindCurrent bound st).socketMap.lookup r.uuid with
              | none =>
                simp only [rosterUuids, setClientFields]
                exact uuids_map_preserve
                  (fun c => by by_cases hc : c.uuid = r.uuid <;> simp [hc]) _
              | some s =>
                simp only [rosterUuids, setClientFields]
                exact uuids_map_preserve
                  (fun c => by by_cases hc : c.uuid = r.uuid <;> simp [hc]) _
            · rw [if_neg hpin]
              right
              simp [rosterUuids]
        · rw [if_neg hue]
          right
          simp [rosterUuids]

lemma disconnectHandler_uuids (selfId : String) (dm : DataMode) (now : Nat)
    (bound : Option String) (st : ServerState) :
    rosterUuids ((disconnectHandler selfId dm now bound st).st)
      = rosterUuids st := by
  cases bound with
  | none => rfl
  | some u => exact uuids_unbind (Option.some u) st

end Reichat

namespace Reichat

lemma roster_nodup_step (selfId : String) (st : ServerState) (e : Ev)
    (hnd : (rosterUuids st).Nodup) (hwf : evWF selfId st e = true) :
    (rosterUuids (stepEv selfId st e)).Nodup := by
  cases e with
  | bind sock bound inp fu fp addr =>
    simp only [evWF, decide_eq_true_eq] at hwf
    rcases clientHandler_uuids selfId DataMode.none sock bound inp fu fp
      addr 0 st with h | h
    · rw [stepEv, h, uuids_unbind]
      exact hnd
    · rw [stepEv, h, uuids_unbind]
      rw [List.nodup_append]
      refine ⟨hnd, List.nodup_singleton fu, ?_⟩
      intro a ha hb
      simp only [List.mem_singleton] at hb
      subst hb
      exact hwf ha
  | disc bound =>
    rw [stepEv, disconnectHandler_uuids]
    exact hnd
  | provide peer cs =>
    rw [stepEv]
    by_cases hp : peer = selfId
    · rw [if_pos hp]; exact hnd
    · rw [if_neg hp]
      simp only [evWF, Bool.and_eq_true, decide_eq_true_eq,
        List.all_eq_true, Bool.or_eq_true] at hwf
      simp only [rosterUuids, updateClientsByServer_eq, List.map_append]
      rw [List.nodup_append]
      refine ⟨?_, hwf.1, ?_⟩
      · exact ((List.filter_sublist st.clients).map
          (fun c => c.uuid)).nodup
          (show (st.clients.map (fun c => c.uuid)).Nodup from hnd)
      · intro a ha hb
        rcases List.mem_map.1 ha with ⟨c2, hc2, he2⟩
        rcases List.mem_map.1 hb with ⟨c, hc, he⟩
        have hc2f := List.of_mem_filter hc2
        have hc2m := List.mem_of_mem_filter hc2
        have hcol := hwf.2 c hc c2 hc2m
        simp only [decide_eq_true_eq] at hc2f
        rcases hcol with hcol | hcol
        · exact hc2f hcol
        · exact hcol (he2.trans he.symm)
  | prune ids =>
    rw [stepEv]
    simp only [rosterUuids]
    exact ((List.filter_sublist st.clients).map (fun c => c.uuid)).nodup
      (show (st.clients.map (fun c => c.uuid)).Nodup from hnd)

end Reichat

namespace Reichat

/-- C7 (amended): in every roster state reached from a fresh server by a
sequence of local binds, disconnects, applied `provide` frames and
dead-server prunes, no two Client records share the same uuid — provided
the trace is well formed: generated uuids are globally fresh and every
applied peer `provide` list is duplicate-free for its peer and collides
with no record of a different server (`evWF`).  Without the `provide`
conditions the invariant fails (see the counterexample): the code applies
a peer's list verbatim. -/
theorem roster_uuids_nodup (selfId : String) (tr : List Ev)
    (hwf : traceWF selfId (initState 0) tr = true) :
    (rosterUuids (runTrace selfId tr)).Nodup := by
  suffices h : ∀ (tr2 : List Ev) (st : ServerState),
      (rosterUuids st).Nodup → traceWF selfId st tr2 = true →
      (rosterUuids (tr2.foldl (stepEv selfId) st)).Nodup by
    exact h tr (initState 0) (by simp [rosterUuids, initState]) hwf
  intro tr2
  induction tr2 with
  | nil => intro st hn _; exact hn
  | cons e rest ih =>
    intro st hn hwf2
    rw [List.foldl_cons]
    rw [traceWF, Bool.and_eq_true] at hwf2
    exact ih _ (roster_nodup_step selfId st e hn hwf2.1) hwf2.2

/-- Witness for C7 (amended) at a concrete trace: a bind followed by a
well-formed peer `provide` yields a duplicate-free roster. -/
theorem roster_uuids_nodup_witness :
    traceWF "S" (initState 0)
        [Ev.bind 1 Option.none (BindInput.mk Option.none Option.none "a")
          "uA" "pA" "",
         Ev.provide "P" [Client.mk "uB" "b" "pb" "" true "P"]] = true
    ∧ (rosterUuids (runTrace "S"
        [Ev.bind 1 Option.none (BindInput.mk Option.none Option.none "a")
          "uA" "pA" "",
         Ev.provide "P" [Client.mk "uB" "b" "pb" "" true "P"]])).Nodup :=
  ⟨by decide,
    roster_uuids_nodup "S"
      [Ev.bind 1 Option.none (BindInput.mk Option.none Option.none "a")
        "uA" "pA" "",
       Ev.provide "P" [Client.mk "uB" "b" "pb" "" true "P"]] (by decide)⟩

/-- Counterexample for C7 as stated: a single applied `provide` frame
whose list carries the same uuid twice (both records claiming the peer)
is applied verbatim by `updateClientsByServer`, leaving two roster
records with the same uuid — a state reachable by one broker frame. -/
theorem roster_uuid_dup_counterexample :
    ¬ (rosterUuids (runTrace "S"
        [Ev.provide "P" [Client.mk "u1" "n" "p" "" true "P",
          Client.mk "u1" "m" "q" "" true "P"]])).Nodup := by
  decide

end Reichat

namespace Reichat

/-- The reuse condition of the `client` handler (src/src/index.ts line
749), read against the state after the unbind prologue: a truthy uuid
whose `map.client` record exists and whose pin matches the supplied
pin. -/
def reuseHit (inp : BindInput) (st1 : ServerState) (r : Client) : Prop :=
  ∃ u, inp.uuid = Option.some u ∧ u ≠ ""
    ∧ st1.clientMap.lookup u = Option.some r
    ∧ inp.pin = Option.some r.pin

/-- C4 (amended): for a valid bind (name of length 1 to 16, uuid absent or
of length 36), if the supplied pin matches the stored record under the
presented uuid, that same record is reused — the returned binding carries
its uuid, its fields are updated to the new name and address with
`isOnline := true`, a previously attached socket is force-disconnected,
and no record is added; otherwise a brand-new Client with the freshly
generated uuid and pin is appended and all other roster records are left
as they were — in both cases relative to the state *after* the unbind
prologue: on a socket that already had a bound client, that client was
first marked offline and unindexed (`unbindCurrent`), which is the one
deviation from the claim as stated. -/
theorem clientHandler_bind_spec (selfId : String) (dm : DataMode)
    (sock : Nat) (bound : Option String) (inp : BindInput)
    (fu fp addr : String) (now : Nat) (st : ServerState)
    (hname : inp.name ≠ "" ∧ inp.name.length ≤ 16)
    (huuid : ∀ u, inp.uuid = Option.some u → u ≠ "" → u.length = 36) :
    (∀ r : Client, reuseHit inp (unbindCurrent bound st) r →
      (clientHandler selfId dm sock bound inp fu fp addr now st).2
          = Option.some r.uuid
        ∧ (clientHandler selfId dm sock bound inp fu fp addr now
            st).1.st.clients
          = (unbindCurrent bound st).clients.map (fun c =>
              if c.uuid = r.uuid then
                { c with
                   name := inp.name
                   remoteAddr := addr
                   isOnline := true }
              else c)
        ∧ (clientHandler selfId dm sock bound inp fu fp addr now st).1.err
            = false
        ∧ ∀ s, (unbindCurrent bound st).socketMap.lookup r.uuid
              = Option.some s →
            Action.disconnectSocket s
              ∈ (clientHandler selfId dm sock bound inp fu fp addr now
                  st).1.out)
    ∧ ((∀ r : Client, ¬ reuseHit inp (unbindCurrent bound st) r) →
      (clientHandler selfId dm sock bound inp fu fp addr now st).2
          = Option.some fu
        ∧ (clientHandler selfId dm sock bound inp fu fp addr now
            st).1.st.clients
          = (unbindCurrent bound st).clients
              ++ [Client.mk fu inp.name fp addr true selfId]
        ∧ (clientHandler selfId dm sock bound inp fu fp addr now st).1.err
            = false) := by
  have hval1 : ¬ uuidLenBad inp.uuid = true := by
    cases hu : inp.uuid with
    | none => simp [uuidLenBad]
    | some u =>
      by_cases hue : u = ""
      · simp [uuidLenBad, hue]
      · have h36 := huuid u hu hue
        simp [uuidLenBad, hue, h36]
  have hval2 : ¬ (inp.name = "" ∨ 16 < inp.name.length) := by
    rcases hname with ⟨ha, hb⟩
    push_neg
    exact ⟨ha, by omega⟩
  constructor
  · intro r hr
    rcases hr with ⟨u, hu, hue, hlk, hpin⟩
    simp only [clientHandler]
    rw [if_neg hval1, if_neg hval2]
    simp only [hu]
    rw [if_pos hue]
    simp only [hlk]
    rw [if_pos hpin]
    simp only
    cases hsk : (unbindCurrent bound st).socketMap.lookup r.uuid with
    | none =>
      simp only [hsk]
      refine ⟨by trivial, ?_, by trivial, ?_⟩
      · simp [setClientFields]
      · intro s hs
        exact Option.noConfusion hs
    | some s0 =>
      simp only [hsk]
      refine ⟨by trivial, ?_, by trivial, ?_⟩
      · simp [setClientFields]
      · intro s hs
        injection hs with e
        subst e
        simp
  · intro hnr
    cases hu : inp.uuid with
    | none =>
      simp only [clientHandler]
      rw [if_neg hval1, if_neg hval2]
      simp only [hu]
      exact ⟨by trivial, by simp, by trivial⟩
    | some u =>
      simp only [clientHandler]
      rw [if_neg hval1, if_neg hval2]
      simp only [hu]
      by_cases hue : u = ""
      · rw [if_neg (fun hne => hne hue)]
        exact ⟨by trivial, by simp, by trivial⟩
      · rw [if_pos hue]
        cases hlk : (unbindCurrent bound st).clientMap.lookup u with
        | none =>
          simp only [hlk]
          exact ⟨by trivial, by simp, by trivial⟩
        | some r =>
          simp only [hlk]
          by_cases hpin : inp.pin = Option.some r.pin
          · exact absurd ⟨u, hu, hue, hlk, hpin⟩ (hnr r)
          · rw [if_neg hpin]
            exact ⟨by trivial, by simp, by trivial⟩

/-- Witness for C4 (amended) at a concrete input: a first bind with no
uuid on a fresh server appends exactly one new record with the generated
credentials. -/
theorem clientHandler_bind_spec_witness :
    ((BindInput.mk Option.none Option.none "a").name ≠ ""
      ∧ (BindInput.mk Option.none Option.none "a").name.length ≤ 16)
    ∧ (clientHandler "S" DataMode.none 1 Option.none
        (BindInput.mk Option.none Option.none "a") "uF" "pF" "ad" 0
        (ServerState.mk [] [] [] [])).1.st.clients
      = (unbindCurrent Option.none (ServerState.mk [] [] [] [])).clients
          ++ [Client.mk "uF" "a" "pF" "ad" true "S"] := by
  refine ⟨by decide, ?_⟩
  exact ((clientHandler_bind_spec "S" DataMode.none 1 Option.none
    (BindInput.mk Option.none Option.none "a") "uF" "pF" "ad" 0
    (ServerState.mk [] [] [] []) (by decide)
    (by intro u h _; exact Option.noConfusion h)).2
    (by intro r hr; rcases hr with ⟨u, hu, _⟩;
        exact Option.noConfusion hu)).2.1

/-- Counterexample for C4 as stated: a valid bind event (name `c`, no
uuid) arriving on a socket already bound to client `uA` takes the
new-client branch, yet the pre-existing record `uA` does not keep its
stored fields — the unbind prologue flips its `isOnline` to false (and
drops its socket-index entry) before the new Client is appended. -/
theorem bind_changes_other_record_counterexample :
    (ServerState.mk [Client.mk "uA" "a" "pa" "" true "S"]
        [("uA", Client.mk "uA" "a" "pa" "" true "S")] [("uA", 1)]
        []).clients.map (fun c => (c.uuid, c.isOnline)) = [("uA", true)]
    ∧ (clientHandler "S" DataMode.none 1 (Option.some "uA")
        (BindInput.mk Option.none (Option.some "x") "c") "uF" "pF" "" 0
        (ServerState.mk [Client.mk "uA" "a" "pa" "" true "S"]
          [("uA", Client.mk "uA" "a" "pa" "" true "S")] [("uA", 1)]
          [])).1.st.clients.map (fun c => (c.uuid, c.isOnline))
      = [("uA", false), ("uF", true)] := by
  exact ⟨rfl, by decide⟩

end Reichat
